import Mathlib

/-!
# AutoAnalytiX — verification of the sensor-fusion / theft-inference core

Shallow embedding of the algorithmic core of the AutoAnalytiX repository:

* `Module-4A_FuelTheftDetection/time_synchronizer.py`
  (`TimeSynchronizer.create_10_minute_synchronized_windows`)
* `Module_4A_FuelTheftDetection/mpg_calculator.py`
  (`MPGCalculator.calculate_real_time_mpg`)
* `Module-4A_FuelTheftDetection/theft_detector.py`
  (`TheftDetector.detect_theft_events_enhanced`)
* `Module_4A_FuelTheftDetection/theft_orchestrator.py`
  (`FUEL_THEFT_DETECTION_MODULE.execute_theft_detection`, per-vehicle slice)
* `Module_4B_FleetUtilization/idle_detector.py`
  (`IdleDetector.identify_idle_periods`)
* `Module-4B_FleetUtilization/cost_calculator.py`
  (`CostCalculator.calculate_idle_costs`)
* `Module_4B_FleetUtilization/savings_projector.py`
  (`SavingsProjector.calculate_savings_projections`)

Modelling conventions:

* Timestamps are rationals, measured in **minutes** (the Python code uses
  `pd.Timestamp`/`timedelta`; all of its arithmetic is in seconds/minutes, so
  a rational minute axis is an exact model).  Sensor values are rationals.
* A pandas column that can hold `NaN` ("no value") is modelled as `Option ℚ`;
  a missing column (`n < 2` early return of `calculate_real_time_mpg`) is
  modelled by `none` in the per-row field that the column would have filled.
* `pandas.sort_values('TIMESTAMP')` is modelled by an insertion sort on the
  timestamp key (`sortByTs`).  The tie order of equal timestamps is
  unspecified in pandas (non-stable quicksort); no theorem below depends on
  tie order — window means are permutation invariant.
* The per-window reading collection of
  `create_10_minute_synchronized_windows` uses monotonically advancing
  cursors (`fuel_idx` …) over the sorted series.  Over a sorted series this
  collects, for the window `[ws, we)`, exactly the readings whose timestamp
  lies in `[ws, we)`; the embedding (`seriesWindowVals`) expresses that set
  directly as a filter of the sorted series.
* The `while current_time < end_time` loop (step 10 minutes) runs exactly
  `⌈(end − start)/10⌉₊` times; the embedding materialises the iterations as
  `List.range (windowCount start end)`.
-/

namespace AutoAnalytiX

/-- One sensor reading from a per-vehicle series: a row of the cleaned
pandas frames (`TIMESTAMP`, value column).  `ts` is in minutes. -/
structure Reading where
  ts : ℚ
  val : ℚ
deriving DecidableEq, Repr

/-- Insert a reading into a list sorted by timestamp. -/
def insertSorted (r : Reading) : List Reading → List Reading
  | [] => [r]
  | x :: xs => if r.ts ≤ x.ts then r :: x :: xs else x :: insertSorted r xs

/-- Model of `DataFrame.sort_values('TIMESTAMP')`: sort a series by
timestamp. -/
def sortByTs (l : List Reading) : List Reading :=
  match l with
  | [] => []
  | r :: rest => insertSorted r (sortByTs rest)

/-! ## Module 4A — `time_synchronizer.py` -/

/-- `all_timestamps`: the timestamps of all three series combined
(`time_synchronizer.py` lines 25–32; extending with an empty series is a
no-op, so the `if not … .empty` guards are absorbed). -/
def allTimestamps (fuel odo speed : List Reading) : List ℚ :=
  fuel.map Reading.ts ++ odo.map Reading.ts ++ speed.map Reading.ts

/-- `start_time = min(all_timestamps)` (line 39). 0 is never used: the
caller returns early when there are no timestamps. -/
def minTs (fuel odo speed : List Reading) : ℚ :=
  match allTimestamps fuel odo speed with
  | [] => 0
  | t :: ts => ts.foldl min t

/-- `end_time = max(all_timestamps)` (line 40). -/
def maxTs (fuel odo speed : List Reading) : ℚ :=
  match allTimestamps fuel odo speed with
  | [] => 0
  | t :: ts => ts.foldl max t

/-- Number of iterations of the `while current_time < end_time` loop
(lines 67, 136): the loop visits `start + 10·k` for each `k` with
`start + 10·k < end`, i.e. `⌈(end − start)/10⌉₊` iterations. -/
def windowCount (s e : ℚ) : ℕ := ⌈(e - s) / 10⌉₊

/-- The values of one (pre-sorted) series whose timestamp lies in the
window `[ws, we)` — what the advancing-cursor loops (lines 85–92 etc.)
collect for that window. -/
def seriesWindowVals (series : List Reading) (ws we : ℚ) : List ℚ :=
  (series.filter (fun r => decide (ws ≤ r.ts ∧ r.ts < we))).map Reading.val

/-- `np.mean(values)` if the window collected any values, else the `None`
the window field was initialised with (lines 73–96). -/
def seriesWindowMean (series : List Reading) (ws we : ℚ) : Option ℚ :=
  let vs := seriesWindowVals series ws we
  if vs.length = 0 then none else some (vs.sum / vs.length)

/-- One `window_data` dict (lines 73–130): representative timestamp
(`window_center`), optional per-sensor means, per-sensor reading counts. -/
structure WindowData where
  timestamp : ℚ
  fuel_level : Option ℚ
  odometer : Option ℚ
  speed : Option ℚ
  fuel_count : ℕ
  odometer_count : ℕ
  speed_count : ℕ
deriving DecidableEq, Repr

/-- Build the `window_data` for the window starting at `ws` (one iteration
of the while loop, lines 67–130).  The series are the pre-sorted ones.  A
count stays 0 exactly when the mean stays `None`, so setting it to the
collected length is faithful. -/
def windowAt (fs os ss : List Reading) (ws : ℚ) : WindowData :=
  { timestamp := ws + 5
    fuel_level := seriesWindowMean fs ws (ws + 10)
    odometer := seriesWindowMean os ws (ws + 10)
    speed := seriesWindowMean ss ws (ws + 10)
    fuel_count := (seriesWindowVals fs ws (ws + 10)).length
    odometer_count := (seriesWindowVals os ws (ws + 10)).length
    speed_count := (seriesWindowVals ss ws (ws + 10)).length }

/-- All windows the while loop builds, before the fuel-and-odometer
retention filter (lines 58–130). -/
def candidateWindows (fuel odo speed : List Reading) : List WindowData :=
  if allTimestamps fuel odo speed = [] then []
  else
    let s := minTs fuel odo speed
    let e := maxTs fuel odo speed
    (List.range (windowCount s e)).map
      (fun (k : ℕ) =>
        windowAt (sortByTs fuel) (sortByTs odo) (sortByTs speed) (s + 10 * (k : ℚ)))

/-- `TimeSynchronizer.create_10_minute_synchronized_windows`
(`time_synchronizer.py` lines 22–147).  The retention test is line 133:
`fuel_level is not None and odometer is not None`.  The final
`sort_values('timestamp')` (line 141) re-sorts an already chronologically
ordered list and is omitted. -/
def create_10_minute_synchronized_windows (fuel odo speed : List Reading) :
    List WindowData :=
  (candidateWindows fuel odo speed).filter
    (fun w => w.fuel_level.isSome && w.odometer.isSome)

/-! ## Module 4A — `mpg_calculator.py` -/

/-- The four values of the `mpg_validation` column (lines 39–44). -/
inductive Flag where
  | NO_FUEL_CONSUMPTION
  | FUEL_SENSOR_ERROR
  | INVESTIGATE_POTENTIAL_THEFT
  | NORMAL_OPERATION
deriving DecidableEq, Repr

/-- The nested `np.where` classifier (lines 39–44), as a function of the
(possibly `NaN`, i.e. `none`) `calculated_mpg` value. -/
def mpgValidation : Option ℚ → Flag
  | none => .NO_FUEL_CONSUMPTION
  | some m =>
    if 50 < m then .FUEL_SENSOR_ERROR
    else if m < 2 then .INVESTIGATE_POTENTIAL_THEFT
    else .NORMAL_OPERATION

/-- The guarded division `np.where(fuel_gallons_consumed > 0,
distance_delta / fuel_gallons_consumed, np.nan)` (lines 32–36).  `NaN`
consumption fails the `> 0` test, and a `NaN` numerator propagates. -/
def calculatedMpgOf (gallons dist : Option ℚ) : Option ℚ :=
  match gallons with
  | some g => if 0 < g then dist.map (fun d => d / g) else none
  | none => none

/-- One row of the frame returned by `calculate_real_time_mpg`: the window
columns plus the five derived columns.  `mpg_validation = none` models the
`len < 2` early return, where the derived columns are never created. -/
structure MpgRow where
  timestamp : ℚ
  fuel_level : Option ℚ
  odometer : Option ℚ
  speed : Option ℚ
  distance_delta : Option ℚ
  fuel_delta : Option ℚ
  fuel_gallons_consumed : Option ℚ
  time_delta_hours : Option ℚ
  calculated_mpg : Option ℚ
  mpg_validation : Option Flag
deriving DecidableEq, Repr

/-- The `len(sync_data) < 2` early return (lines 22–23): the window rows
pass through with no derived columns. -/
def plainRow (w : WindowData) : MpgRow :=
  { timestamp := w.timestamp, fuel_level := w.fuel_level,
    odometer := w.odometer, speed := w.speed,
    distance_delta := none, fuel_delta := none,
    fuel_gallons_consumed := none, time_delta_hours := none,
    calculated_mpg := none, mpg_validation := none }

/-- One output row (lines 25–44) for window `w`, whose predecessor in the
frame is `prev` (`none` for the first row, where every `.diff()` column is
`NaN`).  `.diff()` on an optional column is `NaN` unless both cells are
present.  `time_delta_hours = minutes/60` models
`total_seconds()/3600`. -/
def mkMpgRow (tank : ℚ) (prev : Option WindowData) (w : WindowData) : MpgRow :=
  let dist : Option ℚ :=
    match prev with
    | some p =>
      match w.odometer, p.odometer with
      | some a, some b => some (a - b)
      | _, _ => none
    | none => none
  let fdelta : Option ℚ :=
    match prev with
    | some p =>
      match w.fuel_level, p.fuel_level with
      | some a, some b => some ((a - b) * (-1))
      | _, _ => none
    | none => none
  let gallons : Option ℚ := fdelta.map (fun fd => fd / 100 * tank)
  let tdelta : Option ℚ :=
    match prev with
    | some p => some ((w.timestamp - p.timestamp) / 60)
    | none => none
  let mpg : Option ℚ := calculatedMpgOf gallons dist
  { timestamp := w.timestamp, fuel_level := w.fuel_level,
    odometer := w.odometer, speed := w.speed,
    distance_delta := dist, fuel_delta := fdelta,
    fuel_gallons_consumed := gallons, time_delta_hours := tdelta,
    calculated_mpg := mpg, mpg_validation := some (mpgValidation mpg) }

/-- Row-wise rendering of the column-wise `.diff()` pipeline: each window
paired with its predecessor. -/
def mpgRows (tank : ℚ) : Option WindowData → List WindowData → List MpgRow
  | _, [] => []
  | prev, w :: ws => mkMpgRow tank prev w :: mpgRows tank (some w) ws

/-- `MPGCalculator.calculate_real_time_mpg` (`mpg_calculator.py` lines
20–52). -/
def calculate_real_time_mpg (sync : List WindowData) (tank : ℚ) : List MpgRow :=
  if sync.length < 2 then sync.map plainRow
  else mpgRows tank none sync

/-! ## Module 4A — `theft_detector.py` -/

/-- Threat levels assigned by `detect_theft_events_enhanced`
(lines 34–45). -/
inductive ThreatLevel where
  | CRITICAL
  | HIGH
  | MEDIUM
  | LOW
deriving DecidableEq, Repr

/-- One theft-event record (lines 52–67).  The identification metadata
(`vehicle_id`, `window_index`) is omitted; `effQuot` is the source's
`efficiency_ratio` field. -/
structure TheftEvent where
  timestamp : ℚ
  fuel_drop_percent : Option ℚ
  fuel_gallons_consumed : Option ℚ
  distance_traveled : Option ℚ
  calculated_mpg : ℚ
  rated_mpg : ℚ
  effQuot : ℚ
  threat_level : ThreatLevel
  investigation_priority : ℕ
  estimated_theft_value : Option ℚ
  time_window_hours : Option ℚ
  validation_flag : Option Flag
deriving DecidableEq, Repr

/-- The pandas test `window['fuel_gallons_consumed'] <= 0` (line 27):
`NaN <= 0` is `False`. -/
def gallonsNonPos : Option ℚ → Bool
  | none => false
  | some g => decide (g ≤ 0)

/-- The `efficiency_ratio` computation (line 31):
`calculated_mpg / rated_mpg if rated_mpg > 0 else 0`. -/
def effOf (rated m : ℚ) : ℚ := if 0 < rated then m / rated else 0

/-- The threat-level / priority ladder (lines 34–45). -/
def threatOf (eff : ℚ) : ThreatLevel × ℕ :=
  if eff < 0.3 then (.CRITICAL, 1)
  else if eff < 0.5 then (.HIGH, 1)
  else if eff < 0.7 then (.MEDIUM, 2)
  else (.LOW, 3)

/-- The theft-event record built for a qualifying row (lines 47–67), with
defined `calculated_mpg = m`. -/
def mkTheftEvent (rated : ℚ) (r : MpgRow) (m : ℚ) : TheftEvent :=
  { timestamp := r.timestamp
    fuel_drop_percent := r.fuel_delta
    fuel_gallons_consumed := r.fuel_gallons_consumed
    distance_traveled := r.distance_delta
    calculated_mpg := m
    rated_mpg := rated
    effQuot := effOf rated m
    threat_level := (threatOf (effOf rated m)).1
    investigation_priority := (threatOf (effOf rated m)).2
    estimated_theft_value := r.fuel_gallons_consumed.map (fun g => g * 5.00)
    time_window_hours := r.time_delta_hours
    validation_flag := r.mpg_validation }

/-- The body of the loop over `suspicious_windows` (lines 24–69) for one
row: `none` when the row is not flagged (line 24 filter) or hits the skip
guard (lines 27–28); otherwise the constructed event. -/
def theftEventFor (rated : ℚ) (r : MpgRow) : Option TheftEvent :=
  if r.mpg_validation = some Flag.INVESTIGATE_POTENTIAL_THEFT then
    match r.calculated_mpg with
    | none => none
    | some m =>
      if gallonsNonPos r.fuel_gallons_consumed then none
      else some (mkTheftEvent rated r m)
  else none

/-- `TheftDetector.detect_theft_events_enhanced` (`theft_detector.py`
lines 19–85): filter to the flagged rows, then one event per row that
passes the skip guard, in row order. -/
def detect_theft_events_enhanced (rows : List MpgRow) (rated : ℚ) :
    List TheftEvent :=
  rows.filterMap (theftEventFor rated)

/-! ## Module 4A — `theft_orchestrator.py` (per-vehicle slice) -/

/-- The per-vehicle decision chain of `execute_theft_detection`
(`theft_orchestrator.py` lines 101–127), with the I/O and metadata lookup
outside the model: `none` means the vehicle was skipped by `continue`
(missing fuel/odometer series, line 107, or zero synchronized windows,
line 116); `some events` means it was analyzed. -/
def analyzeVehicle (fuel odo speed : List Reading) (tank rated : ℚ) :
    Option (List TheftEvent) :=
  if fuel = [] ∨ odo = [] then none
  else
    let sync := create_10_minute_synchronized_windows fuel odo speed
    if sync = [] then none
    else some (detect_theft_events_enhanced (calculate_real_time_mpg sync tank) rated)

/-! ## Module 4B — `idle_detector.py` -/

/-- One idle-period record (`idle_detector.py` lines 38–43).
Timestamps in minutes, so `duration_minutes = end − start` models
`total_seconds()/60`. -/
structure IdlePeriod where
  start_time : ℚ
  end_time : ℚ
  duration_minutes : ℚ
  duration_hours : ℚ
deriving DecidableEq, Repr

/-- The record appended for a run `[s, e)` (lines 38–43 and 53–58). -/
def mkIdlePeriod (s e : ℚ) : IdlePeriod :=
  { start_time := s, end_time := e,
    duration_minutes := e - s, duration_hours := (e - s) / 60 }

/-- One iteration of the row loop (lines 28–45).  State: the start of the
currently open zero-speed run (if any) and the periods recorded so far. -/
def idleStep (st : Option ℚ × List IdlePeriod) (r : Reading) :
    Option ℚ × List IdlePeriod :=
  if r.val = 0 then
    match st.1 with
    | none => (some r.ts, st.2)
    | some s => (some s, st.2)
  else
    match st.1 with
    | none => (none, st.2)
    | some s =>
      (none, if 5 < r.ts - s then st.2 ++ [mkIdlePeriod s r.ts] else st.2)

/-- The trailing-open-run handling (lines 48–58): close at the last
timestamp of the sorted series. -/
def idleFinish (rows : List Reading) (st : Option ℚ × List IdlePeriod) :
    List IdlePeriod :=
  match st.1, rows.getLast? with
  | some s, some lastR =>
    if 5 < lastR.ts - s then st.2 ++ [mkIdlePeriod s lastR.ts] else st.2
  | _, _ => st.2

/-- `IdleDetector.identify_idle_periods` (`idle_detector.py` lines
17–60). -/
def identify_idle_periods (speedData : List Reading) : List IdlePeriod :=
  if speedData = [] then []
  else
    let rows := sortByTs speedData
    idleFinish rows (rows.foldl idleStep (none, []))

/-! ## Module 4B — `cost_calculator.py` -/

/-- The cost-analysis dict of `calculate_idle_costs` (lines 20–28 and
43–53).  The non-empty branch also stores the constant
`cost_per_hour = 34.00` and echoes the period list; both are omitted. -/
structure IdleCostAnalysis where
  total_idle_hours : ℚ
  total_idle_cost : ℚ
  fuel_waste_cost : ℚ
  operational_cost : ℚ
  idle_events : ℕ
  longest_idle_hours : ℚ
  average_idle_duration : ℚ
deriving DecidableEq, Repr

/-- `CostCalculator.calculate_idle_costs` (`cost_calculator.py`
lines 17–69). -/
def calculate_idle_costs (idlePeriods : List IdlePeriod) : IdleCostAnalysis :=
  match idlePeriods with
  | [] =>
    { total_idle_hours := 0, total_idle_cost := 0, fuel_waste_cost := 0,
      operational_cost := 0, idle_events := 0, longest_idle_hours := 0,
      average_idle_duration := 0 }
  | p :: ps =>
    let durations := (p :: ps).map IdlePeriod.duration_hours
    let h := durations.sum
    { total_idle_hours := h
      total_idle_cost := h * 34.00
      fuel_waste_cost := h * 4.00
      operational_cost := h * 30.00
      idle_events := (p :: ps).length
      longest_idle_hours := (ps.map IdlePeriod.duration_hours).foldl max p.duration_hours
      average_idle_duration := durations.sum / durations.length }

/-! ## Module 4B — `savings_projector.py` -/

/-- One projection scenario (lines 23–37). -/
structure SavingsScenario where
  reduction_percentage : ℕ
  annual_savings : ℚ
  description : String
deriving DecidableEq, Repr

/-- The three-scenario dict returned by `calculate_savings_projections`. -/
structure SavingsProjections where
  scen25 : SavingsScenario
  scen50 : SavingsScenario
  scen75 : SavingsScenario
deriving DecidableEq, Repr

/-- `SavingsProjector.calculate_savings_projections`
(`savings_projector.py` lines 17–40). -/
def calculate_savings_projections (idleAnalysis : IdleCostAnalysis) :
    SavingsProjections :=
  let c := idleAnalysis.total_idle_cost
  { scen25 :=
      { reduction_percentage := 25, annual_savings := c * 0.25,
        description := "25% Idle Reduction (Basic Training)" }
    scen50 :=
      { reduction_percentage := 50, annual_savings := c * 0.50,
        description := "50% Idle Reduction (Comprehensive Program)" }
    scen75 :=
      { reduction_percentage := 75, annual_savings := c * 0.75,
        description := "75% Idle Reduction (Advanced Optimization)" } }

/-! ## Spec-side definitions

These two definitions follow the wording of the specification (not the
source) and exist to be *compared* with the source-derived definitions
above. -/

/-- Spec-side window mean: "the arithmetic mean of that series' readings
with timestamp in [window_start, window_end)", taken over the series as
given (no sorting). -/
def windowMeanSpec (series : List Reading) (ws we : ℚ) : Option ℚ :=
  let vs := (series.filter (fun r => decide (ws ≤ r.ts ∧ r.ts < we))).map Reading.val
  if vs.length = 0 then none else some (vs.sum / vs.length)

/-- Spec-side run extraction: the maximal contiguous runs of `speed = 0`
readings in a chronologically sorted series, each reported as its first
timestamp together with the timestamp of the first following non-zero
reading — or `none` when the run is still open at the end of the input.
The head case consumes a whole maximal run at once (`dropWhile` of the
zero readings), so maximality is structural. -/
def specZeroRunsF : ℕ → List Reading → List (ℚ × Option ℚ)
  | _, [] => []
  | 0, _ :: _ => []
  | fuel + 1, r :: rest =>
    if r.val = 0 then
      match rest.dropWhile (fun x => decide (x.val = 0)) with
      | [] => [(r.ts, none)]
      | nz :: rest' => (r.ts, some nz.ts) :: specZeroRunsF fuel rest'
    else specZeroRunsF fuel rest

/-- Entry point for `specZeroRunsF` with enough fuel (the recursion
consumes at least one reading per step, so `l.length` suffices). -/
def specZeroRuns (l : List Reading) : List (ℚ × Option ℚ) :=
  specZeroRunsF l.length l

/-- Spec-side closing of one run: a run closed by a following non-zero
reading keeps its closing timestamp; a run still open at the end of the
input is closed at the last timestamp of the series (`lastTs`).  The run
becomes an idle period only when its duration strictly exceeds 5
minutes. -/
def closeRunAt (lastTs : ℚ) (se : ℚ × Option ℚ) : Option IdlePeriod :=
  match se.2 with
  | some e => if 5 < e - se.1 then some (mkIdlePeriod se.1 e) else none
  | none => if 5 < lastTs - se.1 then some (mkIdlePeriod se.1 lastTs) else none

/-- Spec-side idle periods: the maximal zero-speed runs of a
chronologically sorted series, an open final run closed at the last
timestamp of the series, kept only when the duration strictly exceeds
5 minutes. -/
def specIdlePeriods (speedData : List Reading) : List IdlePeriod :=
  match speedData.getLast? with
  | none => []
  | some lastR => (specZeroRuns speedData).filterMap (closeRunAt lastR.ts)

/-- Closing the loop state against a given final timestamp — what
`idleFinish` does once the last row of the series is known. -/
def idleClose (lastTs : ℚ) (st : Option ℚ × List IdlePeriod) : List IdlePeriod :=
  match st.1 with
  | some s =>
    if 5 < lastTs - s then st.2 ++ [mkIdlePeriod s lastTs] else st.2
  | none => st.2

/-! ## Helper lemmas -/

/-- Insertion keeps the elements: `insertSorted r l` is a permutation of
`r :: l`. -/
theorem insertSorted_perm (r : Reading) (l : List Reading) :
    (insertSorted r l).Perm (r :: l) := by
  induction l with
  | nil => simp [insertSorted]
  | cons x xs ih =>
    by_cases h : r.ts ≤ x.ts
    · simp [insertSorted, h]
    · simp only [insertSorted, h, if_false]
      exact (List.Perm.cons x ih).trans (List.Perm.swap r x xs)

/-- Sorting keeps the elements. -/
theorem sortByTs_perm (l : List Reading) : (sortByTs l).Perm l := by
  induction l with
  | nil => simp [sortByTs]
  | cons r rest ih =>
    exact (insertSorted_perm r (sortByTs rest)).trans (List.Perm.cons r ih)

/-- The window mean of the sorted series is the spec-side window mean of
the original series. -/
theorem seriesWindowMean_sortByTs (series : List Reading) (ws we : ℚ) :
    seriesWindowMean (sortByTs series) ws we = windowMeanSpec series ws we := by
  have hperm :
      ((sortByTs series).filter (fun r => decide (ws ≤ r.ts ∧ r.ts < we))).Perm
        (series.filter (fun r => decide (ws ≤ r.ts ∧ r.ts < we))) :=
    (sortByTs_perm series).filter _
  have hmap :
      (((sortByTs series).filter (fun r => decide (ws ≤ r.ts ∧ r.ts < we))).map
        Reading.val).Perm
        ((series.filter (fun r => decide (ws ≤ r.ts ∧ r.ts < we))).map Reading.val) :=
    hperm.map _
  simp only [seriesWindowMean, windowMeanSpec, seriesWindowVals]
  rw [hmap.length_eq, hmap.sum_eq]

/-- `foldl min` computes a lower bound of the seed. -/
theorem foldl_min_le_seed (l : List ℚ) (t : ℚ) : l.foldl min t ≤ t := by
  induction l generalizing t with
  | nil => simp
  | cons a as ih =>
    calc (a :: as).foldl min t = as.foldl min (min t a) := rfl
    _ ≤ min t a := ih _
    _ ≤ t := min_le_left _ _

/-- `foldl min` is a lower bound of all elements. -/
theorem foldl_min_le_mem (l : List ℚ) (t x : ℚ) (hx : x ∈ l) :
    l.foldl min t ≤ x := by
  induction l generalizing t with
  | nil => cases hx
  | cons a as ih =>
    rcases List.mem_cons.mp hx with h | h
    · subst h
      calc (x :: as).foldl min t = as.foldl min (min t x) := rfl
      _ ≤ min t x := foldl_min_le_seed _ _
      _ ≤ x := min_le_right _ _
    · rw [List.foldl_cons]
      exact ih _ h

/-- The seed is a lower bound of `foldl max`. -/
theorem seed_le_foldl_max (l : List ℚ) (t : ℚ) : t ≤ l.foldl max t := by
  induction l generalizing t with
  | nil => simp
  | cons a as ih =>
    calc t ≤ max t a := le_max_left _ _
    _ ≤ as.foldl max (max t a) := ih _
    _ = (a :: as).foldl max t := rfl

/-- `foldl max` is an upper bound of all elements. -/
theorem mem_le_foldl_max (l : List ℚ) (t x : ℚ) (hx : x ∈ l) :
    x ≤ l.foldl max t := by
  induction l generalizing t with
  | nil => cases hx
  | cons a as ih =>
    rcases List.mem_cons.mp hx with h | h
    · subst h
      calc x ≤ max t x := le_max_right _ _
      _ ≤ as.foldl max (max t x) := seed_le_foldl_max _ _
      _ = (x :: as).foldl max t := rfl
    · rw [List.foldl_cons]
      exact ih _ h

/-- `foldl min` is attained: it is the seed or one of the elements. -/
theorem foldl_min_mem (l : List ℚ) (t : ℚ) : l.foldl min t ∈ t :: l := by
  induction l generalizing t with
  | nil => simp
  | cons a as ih =>
    have h := ih (min t a)
    rcases List.mem_cons.mp h with h' | h'
    · rw [List.foldl_cons, h']
      rcases min_cases t a with ⟨he, _⟩ | ⟨he, _⟩ <;> rw [he] <;> simp
    · rw [List.foldl_cons]
      exact List.mem_cons.mpr (Or.inr (List.mem_cons.mpr (Or.inr h')))

/-! ## Claims -/

/-- C1: every window emitted by
`create_10_minute_synchronized_windows` has a present (non-absent)
fuel_level value and a present odometer value; speed may be absent. -/
theorem emitted_window_has_fuel_and_odometer
    (fuel odo speed : List Reading) (w : WindowData)
    (hw : w ∈ create_10_minute_synchronized_windows fuel odo speed) :
    w.fuel_level.isSome ∧ w.odometer.isSome := by
  have h := (List.mem_filter.mp hw).2
  simp only [Bool.and_eq_true] at h
  exact ⟨h.1, h.2⟩

/-- C2: the `mpg_validation` flag is total and assigned in the fixed
priority order: undefined mpg → NO_FUEL_CONSUMPTION; else mpg > 50 →
FUEL_SENSOR_ERROR; else mpg < 2 → INVESTIGATE_POTENTIAL_THEFT; else
NORMAL_OPERATION.  The four preimage characterizations are pairwise
disjoint and exhaustive, so the flags partition the records. -/
theorem mpg_validation_partition (m : Option ℚ) :
    (mpgValidation m = .NO_FUEL_CONSUMPTION ↔ m = none) ∧
    (mpgValidation m = .FUEL_SENSOR_ERROR ↔ ∃ x, m = some x ∧ 50 < x) ∧
    (mpgValidation m = .INVESTIGATE_POTENTIAL_THEFT ↔ ∃ x, m = some x ∧ x < 2) ∧
    (mpgValidation m = .NORMAL_OPERATION ↔ ∃ x, m = some x ∧ 2 ≤ x ∧ x ≤ 50) := by
  rcases m with _ | x
  · refine ⟨by simp [mpgValidation], by simp [mpgValidation], by simp [mpgValidation],
      by simp [mpgValidation]⟩
  · simp only [mpgValidation, Option.some.injEq]
    split_ifs with h1 h2
    · refine ⟨by simp, ?_, ?_, ?_⟩
      · simp only [true_iff]
        exact ⟨x, rfl, h1⟩
      · constructor
        · intro h; cases h
        · rintro ⟨y, hy, hlt⟩; cases hy; linarith
      · constructor
        · intro h; cases h
        · rintro ⟨y, hy, _, hle⟩; cases hy; linarith
    · refine ⟨by simp, ?_, ?_, ?_⟩
      · constructor
        · intro h; cases h
        · rintro ⟨y, hy, hgt⟩; cases hy; exact absurd hgt h1
      · simp only [true_iff]
        exact ⟨x, rfl, h2⟩
      · constructor
        · intro h; cases h
        · rintro ⟨y, hy, hge, _⟩; cases hy; linarith
    · refine ⟨by simp, ?_, ?_, ?_⟩
      · constructor
        · intro h; cases h
        · rintro ⟨y, hy, hgt⟩; cases hy; exact absurd hgt h1
      · constructor
        · intro h; cases h
        · rintro ⟨y, hy, hlt⟩; cases hy; exact absurd hlt h2
      · simp only [true_iff]
        exact ⟨x, rfl, by linarith, by linarith⟩

/-- C7: `calculated_mpg` equals `distance_delta / fuel_gallons_consumed`
exactly when consumption is positive, and otherwise is undefined (`none`,
not zero and not a propagated NaN); the guarded division is a total
function (it never raises), and non-positive consumption routes to
NO_FUEL_CONSUMPTION. -/
theorem calculated_mpg_guarded (d g : ℚ) :
    (0 < g → calculatedMpgOf (some g) (some d) = some (d / g)) ∧
    (g ≤ 0 →
      calculatedMpgOf (some g) (some d) = none ∧
      mpgValidation (calculatedMpgOf (some g) (some d)) = .NO_FUEL_CONSUMPTION) := by
  constructor
  · intro h
    simp [calculatedMpgOf, h]
  · intro h
    have h0 : ¬ (0 < g) := not_lt.mpr h
    refine ⟨by simp [calculatedMpgOf, h0], by simp [calculatedMpgOf, h0, mpgValidation]⟩

/-- Witness for C7 at distance 100 with consumption 8 (mpg 12.5) and with
consumption −5 (undefined, flagged NO_FUEL_CONSUMPTION). -/
theorem calculated_mpg_guarded_witness :
    calculatedMpgOf (some 8) (some 100) = some (100 / 8) ∧
    calculatedMpgOf (some (-5)) (some 100) = none ∧
    mpgValidation (calculatedMpgOf (some (-5)) (some 100)) = .NO_FUEL_CONSUMPTION := by
  refine ⟨(calculated_mpg_guarded 100 8).1 (by norm_num), ?_, ?_⟩
  · exact ((calculated_mpg_guarded 100 (-5)).2 (by norm_num)).1
  · exact ((calculated_mpg_guarded 100 (-5)).2 (by norm_num)).2

/-- C8: for total idle hours `h ≥ 0`, `calculate_idle_costs` returns
fuel waste `h·4`, operational cost `h·30` and total `h·34`, the first two
summing to the total, and `calculate_savings_projections` scales the
total by 0.25 / 0.50 / 0.75. -/
theorem idle_costs_and_savings (ps : List IdlePeriod)
    (hpos : 0 ≤ (ps.map IdlePeriod.duration_hours).sum) :
    (calculate_idle_costs ps).total_idle_hours =
        (ps.map IdlePeriod.duration_hours).sum ∧
    (calculate_idle_costs ps).fuel_waste_cost =
        (calculate_idle_costs ps).total_idle_hours * 4 ∧
    (calculate_idle_costs ps).operational_cost =
        (calculate_idle_costs ps).total_idle_hours * 30 ∧
    (calculate_idle_costs ps).total_idle_cost =
        (calculate_idle_costs ps).total_idle_hours * 34 ∧
    (calculate_idle_costs ps).fuel_waste_cost +
        (calculate_idle_costs ps).operational_cost =
        (calculate_idle_costs ps).total_idle_cost ∧
    (calculate_savings_projections (calculate_idle_costs ps)).scen25.annual_savings =
        (calculate_idle_costs ps).total_idle_cost * 0.25 ∧
    (calculate_savings_projections (calculate_idle_costs ps)).scen50.annual_savings =
        (calculate_idle_costs ps).total_idle_cost * 0.50 ∧
    (calculate_savings_projections (calculate_idle_costs ps)).scen75.annual_savings =
        (calculate_idle_costs ps).total_idle_cost * 0.75 := by
  match ps with
  | [] =>
    refine ⟨rfl, ?_, ?_, ?_, ?_, rfl, rfl, rfl⟩ <;>
      simp [calculate_idle_costs, calculate_savings_projections]
  | p :: ps' =>
    refine ⟨rfl, ?_, ?_, ?_, ?_, rfl, rfl, rfl⟩ <;>
      · simp only [calculate_idle_costs]
        norm_num
        try ring

/-- Witness for C8 at a single idle period of 10 hours: costs 40 / 300 /
340 and 50%-scenario savings 170. -/
theorem idle_costs_and_savings_witness :
    (calculate_idle_costs [mkIdlePeriod 0 600]).fuel_waste_cost = 40 ∧
    (calculate_idle_costs [mkIdlePeriod 0 600]).operational_cost = 300 ∧
    (calculate_idle_costs [mkIdlePeriod 0 600]).total_idle_cost = 340 ∧
    (calculate_savings_projections
        (calculate_idle_costs [mkIdlePeriod 0 600])).scen50.annual_savings = 170 := by
  have h := idle_costs_and_savings [mkIdlePeriod 0 600]
    (by norm_num [mkIdlePeriod])
  have hh : (calculate_idle_costs [mkIdlePeriod 0 600]).total_idle_hours = 10 := by
    rw [h.1]
    norm_num [mkIdlePeriod]
  refine ⟨?_, ?_, ?_, ?_⟩
  · rw [h.2.1, hh]; norm_num
  · rw [h.2.2.1, hh]; norm_num
  · rw [h.2.2.2.1, hh]; norm_num
  · rw [h.2.2.2.2.2.2.1, h.2.2.2.1, hh]; norm_num

/-- Witness for C1: a concrete run (fuel and odometer at t = 0, a speed
reading at t = 10) emits a window, and that window has both required
sensors present. -/
theorem emitted_window_witness :
    ∃ w ∈ create_10_minute_synchronized_windows
        [⟨0, 80⟩] [⟨0, 1000⟩] [⟨10, 5⟩],
      w.fuel_level.isSome ∧ w.odometer.isSome := by
  have hall : allTimestamps [⟨0, 80⟩] [⟨0, 1000⟩] [⟨10, 5⟩] = [0, 0, 10] := rfl
  have hs : minTs [⟨0, 80⟩] [⟨0, 1000⟩] [⟨10, 5⟩] = 0 := by
    simp only [minTs, hall]
    norm_num [min_def]
  have he : maxTs [⟨0, 80⟩] [⟨0, 1000⟩] [⟨10, 5⟩] = 10 := by
    simp only [maxTs, hall]
    norm_num [max_def]
  have hcount : windowCount 0 10 = 1 := by
    have h1 : ((10 : ℚ) - 0) / 10 = 1 := by norm_num
    simp only [windowCount, h1, Nat.ceil_one]
  have hne : create_10_minute_synchronized_windows
      [⟨0, 80⟩] [⟨0, 1000⟩] [⟨10, 5⟩] ≠ [] := by
    simp only [create_10_minute_synchronized_windows, candidateWindows, hall, hs, he,
      hcount]
    norm_num [windowAt, seriesWindowMean, seriesWindowVals, sortByTs, insertSorted,
      List.range_succ, List.filter]
  exact ⟨_, List.head_mem hne,
    emitted_window_has_fuel_and_odometer _ _ _ _ (List.head_mem hne)⟩

/-- One output row per input window. -/
theorem mpgRows_length (tank : ℚ) :
    ∀ (prev : Option WindowData) (l : List WindowData),
      (mpgRows tank prev l).length = l.length := by
  intro prev l
  induction l generalizing prev with
  | nil => rfl
  | cons w ws ih => simp [mpgRows, ih]

/-- `calculate_real_time_mpg` keeps the row count of its input. -/
theorem calculate_real_time_mpg_length (sync : List WindowData) (tank : ℚ) :
    (calculate_real_time_mpg sync tank).length = sync.length := by
  by_cases h : sync.length < 2 <;>
    simp [calculate_real_time_mpg, h, mpgRows_length]

/-- Head of `mpgRows`: the first row is built with no predecessor. -/
theorem mpgRows_head (tank : ℚ) (prev : Option WindowData) (l : List WindowData) :
    (mpgRows tank prev l)[0]? = (l[0]?).map (mkMpgRow tank prev) := by
  cases l <;> simp [mpgRows]

/-- Indexing `mpgRows`: row `i+1` is built from windows `i` and `i+1`. -/
theorem mpgRows_get_succ (tank : ℚ) :
    ∀ (l : List WindowData) (prev : Option WindowData) (i : ℕ),
      (mpgRows tank prev l)[i + 1]? =
        (l[i]?).bind (fun p => (l[i + 1]?).map (mkMpgRow tank (some p))) := by
  intro l
  induction l with
  | nil => intro prev i; rfl
  | cons w ws ih =>
    intro prev i
    match i with
    | 0 =>
      simp only [mpgRows, List.getElem?_cons_succ, List.getElem?_cons_zero,
        Option.bind_some]
      exact mpgRows_head tank (some w) ws
    | j + 1 =>
      simp only [mpgRows, List.getElem?_cons_succ]
      exact ih (some w) j

/-- C3 counterexample: on a two-window input the output of
`calculate_real_time_mpg` has 2 rows, not 2 − 1 = 1 as claimed. -/
theorem consumption_output_length_counterexample :
    (calculate_real_time_mpg
        [⟨5, some 80, some 1000, none, 1, 1, 0⟩,
         ⟨15, some 40, some 1100, none, 1, 1, 0⟩] 20).length ≠ 1 := by
  rw [calculate_real_time_mpg_length]
  simp

/-- C3 amended: `calculate_real_time_mpg` returns one row per input
window (output length = n, not n − 1).  For n ≥ 2 the first row carries no
pair data (it is built with no predecessor) and each later row `i+1` is
the consumption record of the consecutive window pair `(i, i+1)` — so the
rows carrying a pair number n − 1.  For n < 2 the input windows are
returned unchanged, with no consumption columns. -/
theorem calculate_real_time_mpg_shape (sync : List WindowData) (tank : ℚ)
    (h2 : 2 ≤ sync.length) :
    (calculate_real_time_mpg sync tank).length = sync.length ∧
    (calculate_real_time_mpg sync tank)[0]? =
      (sync[0]?).map (mkMpgRow tank none) ∧
    (∀ i : ℕ,
      (calculate_real_time_mpg sync tank)[i + 1]? =
        (sync[i]?).bind (fun p => (sync[i + 1]?).map (mkMpgRow tank (some p)))) := by
  have hnlt : ¬ sync.length < 2 := by omega
  refine ⟨calculate_real_time_mpg_length sync tank, ?_, ?_⟩
  · simp only [calculate_real_time_mpg, if_neg hnlt]
    exact mpgRows_head tank none sync
  · intro i
    simp only [calculate_real_time_mpg, if_neg hnlt]
    exact mpgRows_get_succ tank sync none i

/-- Witness for C3's amended statement: on the two-window input of the
counterexample the output has 2 rows and row 1 is the consumption record
of the window pair. -/
theorem calculate_real_time_mpg_shape_witness :
    2 ≤ ([⟨5, some 80, some 1000, none, 1, 1, 0⟩,
          ⟨15, some 40, some 1100, none, 1, 1, 0⟩] : List WindowData).length ∧
    (calculate_real_time_mpg
        [⟨5, some 80, some 1000, none, 1, 1, 0⟩,
         ⟨15, some 40, some 1100, none, 1, 1, 0⟩] 20).length = 2 := by
  refine ⟨by simp, ?_⟩
  have h := calculate_real_time_mpg_shape
    [⟨5, some 80, some 1000, none, 1, 1, 0⟩,
     ⟨15, some 40, some 1100, none, 1, 1, 0⟩] 20 (by simp)
  rw [h.1]
  simp

/-- C4: for a record flagged INVESTIGATE_POTENTIAL_THEFT whose
`calculated_mpg` is defined (the pipeline guarantees this, see C9) and
whose `fuel_gallons_consumed` is positive, `detect_theft_events_enhanced`
produces exactly one TheftEvent, with efficiency ratio `m / rated` (0 when
`rated ≤ 0`), the CRITICAL/HIGH/MEDIUM/LOW ↦ 1/1/2/3 threat mapping at the
0.3 / 0.5 / 0.7 thresholds, and theft value `gallons × 5.00`. -/
theorem theft_event_per_flagged_record (r : MpgRow) (rated m g : ℚ)
    (hflag : r.mpg_validation = some .INVESTIGATE_POTENTIAL_THEFT)
    (hm : r.calculated_mpg = some m)
    (hg : r.fuel_gallons_consumed = some g) (hgpos : 0 < g) :
    ∃ ev : TheftEvent,
      detect_theft_events_enhanced [r] rated = [ev] ∧
      (0 < rated → ev.effQuot = m / rated) ∧
      (rated ≤ 0 → ev.effQuot = 0) ∧
      (ev.effQuot < 0.3 →
        ev.threat_level = .CRITICAL ∧ ev.investigation_priority = 1) ∧
      (0.3 ≤ ev.effQuot → ev.effQuot < 0.5 →
        ev.threat_level = .HIGH ∧ ev.investigation_priority = 1) ∧
      (0.5 ≤ ev.effQuot → ev.effQuot < 0.7 →
        ev.threat_level = .MEDIUM ∧ ev.investigation_priority = 2) ∧
      (0.7 ≤ ev.effQuot →
        ev.threat_level = .LOW ∧ ev.investigation_priority = 3) ∧
      ev.estimated_theft_value = some (g * 5.00) := by
  have hnp : gallonsNonPos r.fuel_gallons_consumed = false := by
    rw [hg]
    simp [gallonsNonPos, not_le.mpr hgpos]
  have hsome : theftEventFor rated r = some (mkTheftEvent rated r m) := by
    rw [theftEventFor, if_pos hflag, hm]
    simp only [hnp, Bool.false_eq_true, if_false]
  have heff : (mkTheftEvent rated r m).effQuot = effOf rated m := rfl
  have htl : (mkTheftEvent rated r m).threat_level = (threatOf (effOf rated m)).1 := rfl
  have hpr : (mkTheftEvent rated r m).investigation_priority =
      (threatOf (effOf rated m)).2 := rfl
  refine ⟨mkTheftEvent rated r m, ?_, ?_, ?_, ?_, ?_, ?_, ?_, ?_⟩
  · simp only [detect_theft_events_enhanced, List.filterMap, hsome]
  · intro hr
    rw [heff, effOf, if_pos hr]
  · intro hr
    rw [heff, effOf, if_neg (not_lt.mpr hr)]
  · intro h1
    rw [heff] at h1
    rw [htl, hpr, threatOf, if_pos h1]
    exact ⟨rfl, rfl⟩
  · intro h1 h2
    rw [heff] at h1 h2
    rw [htl, hpr, threatOf, if_neg (not_lt.mpr h1), if_pos h2]
    exact ⟨rfl, rfl⟩
  · intro h1 h2
    rw [heff] at h1 h2
    have h3 : ¬ effOf rated m < 0.3 := by
      push_neg
      calc (0.3 : ℚ) ≤ 0.5 := by norm_num
      _ ≤ effOf rated m := h1
    rw [htl, hpr, threatOf, if_neg h3, if_neg (not_lt.mpr h1), if_pos h2]
    exact ⟨rfl, rfl⟩
  · intro h1
    rw [heff] at h1
    have h3 : ¬ effOf rated m < 0.3 := by
      push_neg
      calc (0.3 : ℚ) ≤ 0.7 := by norm_num
      _ ≤ effOf rated m := h1
    have h5 : ¬ effOf rated m < 0.5 := by
      push_neg
      calc (0.5 : ℚ) ≤ 0.7 := by norm_num
      _ ≤ effOf rated m := h1
    rw [htl, hpr, threatOf, if_neg h3, if_neg h5, if_neg (not_lt.mpr h1)]
    exact ⟨rfl, rfl⟩
  · show r.fuel_gallons_consumed.map (fun x => x * 5.00) = some (g * 5.00)
    rw [hg]
    rfl

/-- Witness for C4, instantiating the spec's Example 3: distance 100,
gallons 60, mpg 5/3, rated 10 → one event, efficiency ratio 1/6, CRITICAL,
priority 1, value $300. -/
theorem theft_event_per_flagged_record_witness :
    ∃ ev : TheftEvent,
      detect_theft_events_enhanced
        [{ timestamp := 15, fuel_level := some 20, odometer := some 1100,
           speed := none, distance_delta := some 100, fuel_delta := some 60,
           fuel_gallons_consumed := some 60, time_delta_hours := some (1 / 6),
           calculated_mpg := some (5 / 3),
           mpg_validation := some .INVESTIGATE_POTENTIAL_THEFT }] 10 = [ev] ∧
      ev.effQuot = 1 / 6 ∧
      ev.threat_level = .CRITICAL ∧
      ev.investigation_priority = 1 ∧
      ev.estimated_theft_value = some 300 := by
  obtain ⟨ev, hlist, hq1, _, hcrit, _, _, _, hval⟩ :=
    theft_event_per_flagged_record
      { timestamp := 15, fuel_level := some 20, odometer := some 1100,
        speed := none, distance_delta := some 100, fuel_delta := some 60,
        fuel_gallons_consumed := some 60, time_delta_hours := some (1 / 6),
        calculated_mpg := some (5 / 3),
        mpg_validation := some .INVESTIGATE_POTENTIAL_THEFT }
      10 (5 / 3) 60 rfl rfl rfl (by norm_num)
  have hq : ev.effQuot = 1 / 6 := by
    rw [hq1 (by norm_num)]
    norm_num
  have hc := hcrit (by rw [hq]; norm_num)
  refine ⟨ev, hlist, hq, hc.1, hc.2, ?_⟩
  rw [hval]
  norm_num

/-- Every row of `mpgRows` is built by `mkMpgRow`. -/
theorem mem_mpgRows (tank : ℚ) :
    ∀ (l : List WindowData) (prev : Option WindowData) (r : MpgRow),
      r ∈ mpgRows tank prev l → ∃ p w, r = mkMpgRow tank p w := by
  intro l
  induction l with
  | nil => intro prev r hr; cases hr
  | cons w ws ih =>
    intro prev r hr
    rcases List.mem_cons.mp hr with h | h
    · exact ⟨prev, w, h⟩
    · exact ih (some w) r h

/-- The stored flag of a built row is the classifier applied to its stored
`calculated_mpg`. -/
theorem mkMpgRow_validation (tank : ℚ) (p : Option WindowData) (w : WindowData) :
    (mkMpgRow tank p w).mpg_validation =
      some (mpgValidation ((mkMpgRow tank p w).calculated_mpg)) := rfl

/-- The stored `calculated_mpg` of a built row is the guarded division of
its stored deltas. -/
theorem mkMpgRow_mpg (tank : ℚ) (p : Option WindowData) (w : WindowData) :
    (mkMpgRow tank p w).calculated_mpg =
      calculatedMpgOf ((mkMpgRow tank p w).fuel_gallons_consumed)
        ((mkMpgRow tank p w).distance_delta) := rfl

/-- A defined guarded division forces a positive consumption value. -/
theorem calculatedMpgOf_some (gallons dist : Option ℚ) (m : ℚ)
    (h : calculatedMpgOf gallons dist = some m) :
    ∃ g, gallons = some g ∧ 0 < g := by
  match gallons with
  | none => cases h
  | some g =>
    refine ⟨g, rfl, ?_⟩
    by_contra hneg
    rw [calculatedMpgOf, if_neg hneg] at h
    cases h

/-- On rows where an INVESTIGATE flag guarantees a produced event, the
filterMap of the detector has one output per flagged row. -/
theorem detect_length_aux (rated : ℚ) :
    ∀ rows : List MpgRow,
      (∀ r ∈ rows, r.mpg_validation = some Flag.INVESTIGATE_POTENTIAL_THEFT →
        (theftEventFor rated r).isSome) →
      (rows.filterMap (theftEventFor rated)).length =
        (rows.filter
          (fun r =>
            decide (r.mpg_validation = some Flag.INVESTIGATE_POTENTIAL_THEFT))).length := by
  intro rows
  induction rows with
  | nil => intro _; rfl
  | cons r rest ih =>
    intro hinv
    have hrest := fun x hx => hinv x (List.mem_cons.mpr (Or.inr hx))
    by_cases hf : r.mpg_validation = some Flag.INVESTIGATE_POTENTIAL_THEFT
    · have hsome := hinv r (List.mem_cons.mpr (Or.inl rfl)) hf
      obtain ⟨ev, hev⟩ := Option.isSome_iff_exists.mp hsome
      simp only [List.filterMap_cons, hev, List.filter_cons, hf, List.length_cons,
        ih hrest]
      simp
    · have hnone : theftEventFor rated r = none := by
        rw [theftEventFor, if_neg hf]
      simp only [List.filterMap_cons, hnone, List.filter_cons, hf, ih hrest]
      simp

/-- C9: in the output of `calculate_real_time_mpg`, every row flagged
INVESTIGATE_POTENTIAL_THEFT has a defined `calculated_mpg` and a positive
`fuel_gallons_consumed`, so the skip guard at the head of the detector
loop never fires and the number of theft events equals the number of
INVESTIGATE_POTENTIAL_THEFT rows. -/
theorem investigate_rows_always_yield_events
    (sync : List WindowData) (tank rated : ℚ) :
    (∀ r ∈ calculate_real_time_mpg sync tank,
      r.mpg_validation = some Flag.INVESTIGATE_POTENTIAL_THEFT →
        r.calculated_mpg.isSome ∧
        ∃ g, r.fuel_gallons_consumed = some g ∧ 0 < g) ∧
    (detect_theft_events_enhanced (calculate_real_time_mpg sync tank) rated).length =
      ((calculate_real_time_mpg sync tank).filter
        (fun r =>
          decide (r.mpg_validation = some Flag.INVESTIGATE_POTENTIAL_THEFT))).length := by
  have hmain : ∀ r ∈ calculate_real_time_mpg sync tank,
      r.mpg_validation = some Flag.INVESTIGATE_POTENTIAL_THEFT →
        ∃ m g, r.calculated_mpg = some m ∧ r.fuel_gallons_consumed = some g ∧ 0 < g := by
    intro r hr hflag
    by_cases hlen : sync.length < 2
    · rw [calculate_real_time_mpg, if_pos hlen] at hr
      obtain ⟨w, _, hw⟩ := List.mem_map.mp hr
      rw [← hw] at hflag
      cases hflag
    · rw [calculate_real_time_mpg, if_neg hlen] at hr
      obtain ⟨p, w, hpw⟩ := mem_mpgRows tank sync none r hr
      subst hpw
      rw [mkMpgRow_validation] at hflag
      have hval : mpgValidation ((mkMpgRow tank p w).calculated_mpg) =
          Flag.INVESTIGATE_POTENTIAL_THEFT := by
        injection hflag
      match hmpg : (mkMpgRow tank p w).calculated_mpg with
      | none =>
        rw [hmpg] at hval
        cases hval
      | some m =>
        obtain ⟨g, hg, hgpos⟩ :=
          calculatedMpgOf_some _ _ m ((mkMpgRow_mpg tank p w) ▸ hmpg)
        exact ⟨m, g, rfl, hg, hgpos⟩
  constructor
  · intro r hr hflag
    obtain ⟨m, g, hm, hg, hgpos⟩ := hmain r hr hflag
    exact ⟨by rw [hm]; rfl, g, hg, hgpos⟩
  · apply detect_length_aux
    intro r hr hflag
    obtain ⟨m, g, hm, hg, hgpos⟩ := hmain r hr hflag
    rw [theftEventFor, if_pos hflag, hm]
    have hnp : gallonsNonPos r.fuel_gallons_consumed = false := by
      rw [hg]
      simp [gallonsNonPos, not_le.mpr hgpos]
    simp only [hnp, Bool.false_eq_true, if_false, Option.isSome_some]

/-- Witness for C9 on a concrete two-window run producing one
INVESTIGATE_POTENTIAL_THEFT row: event count = flagged-row count. -/
theorem investigate_rows_always_yield_events_witness :
    (detect_theft_events_enhanced
        (calculate_real_time_mpg
          [⟨5, some 80, some 1000, none, 1, 1, 0⟩,
           ⟨15, some 20, some 1010, none, 1, 1, 0⟩] 100) 10).length =
      ((calculate_real_time_mpg
          [⟨5, some 80, some 1000, none, 1, 1, 0⟩,
           ⟨15, some 20, some 1010, none, 1, 1, 0⟩] 100).filter
        (fun r =>
          decide (r.mpg_validation = some Flag.INVESTIGATE_POTENTIAL_THEFT))).length :=
  (investigate_rows_always_yield_events
    [⟨5, some 80, some 1000, none, 1, 1, 0⟩,
     ⟨15, some 20, some 1010, none, 1, 1, 0⟩] 100 10).2

/-- `foldl max` is attained: it is the seed or one of the elements. -/
theorem foldl_max_mem (l : List ℚ) (t : ℚ) : l.foldl max t ∈ t :: l := by
  induction l generalizing t with
  | nil => simp
  | cons a as ih =>
    have h := ih (max t a)
    rcases List.mem_cons.mp h with h' | h'
    · rw [List.foldl_cons, h']
      rcases max_cases t a with ⟨he, _⟩ | ⟨he, _⟩ <;> rw [he] <;> simp
    · rw [List.foldl_cons]
      exact List.mem_cons.mpr (Or.inr (List.mem_cons.mpr (Or.inr h')))

/-- C10: when every reading of three non-empty series carries one common
timestamp, the synchronizer returns no windows at all, and the
per-vehicle theft analysis skips the vehicle exactly as it does when a
required series is missing. -/
theorem single_timestamp_yields_no_windows
    (fuel odo speed : List Reading) (tank rated t0 : ℚ)
    (hf : fuel ≠ []) (ho : odo ≠ []) (_hs : speed ≠ [])
    (hts : ∀ x ∈ allTimestamps fuel odo speed, x = t0) :
    create_10_minute_synchronized_windows fuel odo speed = [] ∧
    analyzeVehicle fuel odo speed tank rated = none ∧
    analyzeVehicle fuel odo speed tank rated =
      analyzeVehicle [] odo speed tank rated := by
  have hne : allTimestamps fuel odo speed ≠ [] := by
    match fuel, hf with
    | r :: _, _ =>
      simp [allTimestamps]
  have hmin : minTs fuel odo speed = t0 := by
    rw [minTs]
    match hall : allTimestamps fuel odo speed with
    | [] => exact absurd hall hne
    | t :: ts =>
      have hmem := foldl_min_mem ts t
      have hsub : ∀ x ∈ t :: ts, x = t0 := by
        rw [← hall]
        exact hts
      exact hsub _ hmem
  have hmax : maxTs fuel odo speed = t0 := by
    rw [maxTs]
    match hall : allTimestamps fuel odo speed with
    | [] => exact absurd hall hne
    | t :: ts =>
      have hmem := foldl_max_mem ts t
      have hsub : ∀ x ∈ t :: ts, x = t0 := by
        rw [← hall]
        exact hts
      exact hsub _ hmem
  have hcount : windowCount t0 t0 = 0 := by
    simp [windowCount]
  have hcand : candidateWindows fuel odo speed = [] := by
    rw [candidateWindows, if_neg hne]
    simp only [hmin, hmax, hcount, List.range_zero, List.map_nil]
  have hcreate : create_10_minute_synchronized_windows fuel odo speed = [] := by
    rw [create_10_minute_synchronized_windows, hcand]
    rfl
  have hfo : ¬ (fuel = [] ∨ odo = []) := by
    rintro (h | h)
    · exact hf h
    · exact ho h
  have hanalyze : analyzeVehicle fuel odo speed tank rated = none := by
    rw [analyzeVehicle, if_neg hfo]
    simp [hcreate]
  have hmissing : analyzeVehicle [] odo speed tank rated = none := by
    rw [analyzeVehicle, if_pos (Or.inl rfl)]
  exact ⟨hcreate, hanalyze, by rw [hanalyze, hmissing]⟩

/-- Witness for C10: three singleton series all at t = 3. -/
theorem single_timestamp_yields_no_windows_witness :
    create_10_minute_synchronized_windows [⟨3, 50⟩] [⟨3, 100⟩] [⟨3, 0⟩] = [] ∧
    analyzeVehicle [⟨3, 50⟩] [⟨3, 100⟩] [⟨3, 0⟩] 100 10 = none ∧
    analyzeVehicle [⟨3, 50⟩] [⟨3, 100⟩] [⟨3, 0⟩] 100 10 =
      analyzeVehicle [] [⟨3, 100⟩] [⟨3, 0⟩] 100 10 :=
  single_timestamp_yields_no_windows [⟨3, 50⟩] [⟨3, 100⟩] [⟨3, 0⟩] 100 10 3
    (by simp) (by simp) (by simp) (by decide)

/-- `foldl min` bounds every element of `t :: l` from below. -/
theorem foldl_min_le (l : List ℚ) (t x : ℚ) (hx : x ∈ t :: l) :
    l.foldl min t ≤ x := by
  rcases List.mem_cons.mp hx with h | h
  · subst h
    exact foldl_min_le_seed l x
  · exact foldl_min_le_mem l t x h

/-- `foldl max` bounds every element of `t :: l` from above. -/
theorem le_foldl_max (l : List ℚ) (t x : ℚ) (hx : x ∈ t :: l) :
    x ≤ l.foldl max t := by
  rcases List.mem_cons.mp hx with h | h
  · subst h
    exact seed_le_foldl_max l x
  · exact mem_le_foldl_max l t x h

/-- The candidate list materialised (non-empty input). -/
theorem candidateWindows_eq (fuel odo speed : List Reading)
    (hne : allTimestamps fuel odo speed ≠ []) :
    candidateWindows fuel odo speed =
      (List.range (windowCount (minTs fuel odo speed) (maxTs fuel odo speed))).map
        (fun (k : ℕ) =>
          windowAt (sortByTs fuel) (sortByTs odo) (sortByTs speed)
            (minTs fuel odo speed + 10 * (k : ℚ))) := by
  rw [candidateWindows, if_neg hne]

/-- C5: for non-empty input the candidate grid of
`create_10_minute_synchronized_windows` starts at the minimum timestamp
over all three series, the k-th window is `[s+10k, s+10k+10)` represented
by its centre `s+10k+5` (so the windows are consecutive, non-overlapping
and exactly 10 minutes wide), each series value is the arithmetic mean of
that series' readings with timestamp in the window, the grid covers
`[min_ts, max_ts)`, and there are at most `⌈(max_ts − min_ts)/10⌉` candidate
windows. -/
theorem candidate_window_grid (fuel odo speed : List Reading)
    (hne : allTimestamps fuel odo speed ≠ []) :
    (candidateWindows fuel odo speed).length ≤
      ⌈(maxTs fuel odo speed - minTs fuel odo speed) / 10⌉₊ ∧
    (∀ x ∈ allTimestamps fuel odo speed,
      minTs fuel odo speed ≤ x ∧ x ≤ maxTs fuel odo speed) ∧
    (∀ k : ℕ, k < (candidateWindows fuel odo speed).length →
      ∃ w : WindowData,
        (candidateWindows fuel odo speed)[k]? = some w ∧
        w.timestamp = minTs fuel odo speed + 10 * k + 5 ∧
        w.fuel_level =
          windowMeanSpec fuel (minTs fuel odo speed + 10 * k)
            (minTs fuel odo speed + 10 * k + 10) ∧
        w.odometer =
          windowMeanSpec odo (minTs fuel odo speed + 10 * k)
            (minTs fuel odo speed + 10 * k + 10) ∧
        w.speed =
          windowMeanSpec speed (minTs fuel odo speed + 10 * k)
            (minTs fuel odo speed + 10 * k + 10)) ∧
    (∀ t : ℚ, minTs fuel odo speed ≤ t → t < maxTs fuel odo speed →
      ∃ k : ℕ, k < (candidateWindows fuel odo speed).length ∧
        minTs fuel odo speed + 10 * k ≤ t ∧
        t < minTs fuel odo speed + 10 * k + 10) := by
  have hlen : (candidateWindows fuel odo speed).length =
      windowCount (minTs fuel odo speed) (maxTs fuel odo speed) := by
    rw [candidateWindows_eq fuel odo speed hne]
    simp
  refine ⟨?_, ?_, ?_, ?_⟩
  · rw [hlen, windowCount]
  · intro x hx
    constructor
    · rw [minTs]
      match hall : allTimestamps fuel odo speed with
      | [] => exact absurd hall hne
      | t :: ts =>
        rw [hall] at hx
        exact foldl_min_le ts t x hx
    · rw [maxTs]
      match hall : allTimestamps fuel odo speed with
      | [] => exact absurd hall hne
      | t :: ts =>
        rw [hall] at hx
        exact le_foldl_max ts t x hx
  · intro k hk
    rw [hlen] at hk
    refine ⟨windowAt (sortByTs fuel) (sortByTs odo) (sortByTs speed)
        (minTs fuel odo speed + 10 * (k : ℚ)), ?_, rfl, ?_, ?_, ?_⟩
    · rw [candidateWindows_eq fuel odo speed hne]
      rw [List.getElem?_map, List.getElem?_range hk]
      rfl
    · show seriesWindowMean (sortByTs fuel) _ _ = _
      rw [seriesWindowMean_sortByTs]
    · show seriesWindowMean (sortByTs odo) _ _ = _
      rw [seriesWindowMean_sortByTs]
    · show seriesWindowMean (sortByTs speed) _ _ = _
      rw [seriesWindowMean_sortByTs]
  · intro t hst hte
    refine ⟨⌊(t - minTs fuel odo speed) / 10⌋₊, ?_, ?_, ?_⟩
    · rw [hlen, windowCount]
      rw [Nat.lt_ceil]
      calc (↑⌊(t - minTs fuel odo speed) / 10⌋₊ : ℚ)
          ≤ (t - minTs fuel odo speed) / 10 :=
            Nat.floor_le (div_nonneg (by linarith) (by norm_num))
      _ < (maxTs fuel odo speed - minTs fuel odo speed) / 10 := by
            apply (div_lt_div_iff_of_pos_right (show (0 : ℚ) < 10 by norm_num)).mpr
            linarith
    · have h := Nat.floor_le
        (show (0 : ℚ) ≤ (t - minTs fuel odo speed) / 10 from
          div_nonneg (by linarith) (by norm_num))
      have h10 : (0 : ℚ) < 10 := by norm_num
      nlinarith [h]
    · have h := Nat.lt_floor_add_one ((t - minTs fuel odo speed) / 10)
      have h10 : (0 : ℚ) < 10 := by norm_num
      nlinarith [h]

/-- A `dropWhile` that returns a cons is strictly shorter than its
input. -/
theorem dropWhile_cons_length {p : Reading → Bool} {l rest' : List Reading}
    {nz : Reading} (h : l.dropWhile p = nz :: rest') :
    rest'.length < l.length := by
  have h1 : (l.dropWhile p).length ≤ l.length := (List.dropWhile_sublist _).length_le
  rw [h] at h1
  simp only [List.length_cons] at h1
  omega

/-- The head of a non-empty `dropWhile` result fails the predicate. -/
theorem dropWhile_head_not {p : Reading → Bool} :
    ∀ {l xs : List Reading} {x : Reading}, l.dropWhile p = x :: xs → p x = false := by
  intro l
  induction l with
  | nil => intro xs x h; cases h
  | cons a as ih =>
    intro xs x h
    rw [List.dropWhile_cons] at h
    by_cases hp : p a = true
    · rw [if_pos hp] at h
      exact ih h
    · rw [if_neg hp] at h
      cases h
      exact eq_false_of_ne_true hp

/-- `specZeroRunsF` is independent of the fuel once it covers the list
length. -/
theorem specZeroRunsF_congr : ∀ (f1 f2 : ℕ) (l : List Reading),
    l.length ≤ f1 → l.length ≤ f2 → specZeroRunsF f1 l = specZeroRunsF f2 l := by
  intro f1
  induction f1 with
  | zero =>
    intro f2 l h1 _
    have hl : l = [] := List.length_eq_zero.mp (Nat.le_zero.mp h1)
    subst hl
    cases f2 <;> simp [specZeroRunsF]
  | succ f ih =>
    intro f2 l h1 h2
    match l with
    | [] => cases f2 <;> simp [specZeroRunsF]
    | r :: rest =>
      match f2 with
      | 0 => simp at h2
      | f2' + 1 =>
        simp only [specZeroRunsF]
        simp only [List.length_cons] at h1 h2
        by_cases hz : r.val = 0
        · simp only [hz, if_true]
          match hdw : rest.dropWhile (fun x => decide (x.val = 0)) with
          | [] => rw [hdw]
          | nz :: rest' =>
            have hlt := dropWhile_cons_length hdw
            have heq := ih f2' rest' (by omega) (by omega)
            rw [hdw]
            simp only [heq]
        · simp only [hz, if_false]
          exact ih f2' rest (by omega) (by omega)

/-- Unfolding `specZeroRuns` at a non-zero head. -/
theorem specZeroRuns_cons_nonzero (r : Reading) (rest : List Reading)
    (hz : ¬ r.val = 0) :
    specZeroRuns (r :: rest) = specZeroRuns rest := by
  show specZeroRunsF (r :: rest).length (r :: rest) = specZeroRunsF rest.length rest
  simp only [List.length_cons, specZeroRunsF, hz, if_false]

/-- Unfolding `specZeroRuns` at a zero head: consume the whole maximal
run. -/
theorem specZeroRuns_cons_zero (r : Reading) (rest : List Reading)
    (hz : r.val = 0) :
    specZeroRuns (r :: rest) =
      (match rest.dropWhile (fun x => decide (x.val = 0)) with
        | [] => [(r.ts, none)]
        | nz :: rest' => (r.ts, some nz.ts) :: specZeroRuns rest') := by
  show specZeroRunsF (r :: rest).length (r :: rest) = _
  simp only [List.length_cons, specZeroRunsF, hz, if_true]
  match hdw : rest.dropWhile (fun x => decide (x.val = 0)) with
  | [] => rw [hdw]
  | nz :: rest' =>
    have hlt := dropWhile_cons_length hdw
    rw [hdw]
    have heq := specZeroRunsF_congr rest.length rest'.length rest'
      (by omega) (le_refl _)
    simp only [heq]
    rfl

/-- `idleStep` on a zero-speed reading with no open run: open one. -/
theorem idleStep_zero_none (acc : List IdlePeriod) (r : Reading)
    (hz : r.val = 0) :
    idleStep (none, acc) r = (some r.ts, acc) := by
  simp [idleStep, hz]

/-- `idleStep` on a zero-speed reading with an open run: keep it. -/
theorem idleStep_zero_some (s : ℚ) (acc : List IdlePeriod) (r : Reading)
    (hz : r.val = 0) :
    idleStep (some s, acc) r = (some s, acc) := by
  simp [idleStep, hz]

/-- `idleStep` on a non-zero reading with no open run: no-op. -/
theorem idleStep_nonzero_none (acc : List IdlePeriod) (r : Reading)
    (hz : ¬ r.val = 0) :
    idleStep (none, acc) r = (none, acc) := by
  simp [idleStep, hz]

/-- `idleStep` on a non-zero reading with an open run: close it at this
reading's timestamp, recording it when longer than 5 minutes. -/
theorem idleStep_nonzero_some (s : ℚ) (acc : List IdlePeriod) (r : Reading)
    (hz : ¬ r.val = 0) :
    idleStep (some s, acc) r =
      (none, if 5 < r.ts - s then acc ++ [mkIdlePeriod s r.ts] else acc) := by
  simp [idleStep, hz]

/-- Folding `idleStep` over zero-speed readings keeps the state. -/
theorem foldl_idleStep_zeros (zs : List Reading) (s : ℚ) (acc : List IdlePeriod)
    (hz : ∀ z ∈ zs, z.val = 0) :
    zs.foldl idleStep (some s, acc) = (some s, acc) := by
  induction zs with
  | nil => rfl
  | cons z zs ih =>
    rw [List.foldl_cons, idleStep_zero_some s acc z (hz z (List.mem_cons_self z zs))]
    exact ih (fun x hx => hz x (List.mem_cons_of_mem z hx))

/-- `getLast?` skips the head when the tail is non-empty. -/
theorem getLast?_cons_ne_nil (a : Reading) (l : List Reading) (h : l ≠ []) :
    (a :: l).getLast? = l.getLast? := by
  have heq : a :: l = [a] ++ l := rfl
  rw [heq, List.getLast?_append_of_ne_nil _ h]

/-- `idleFinish` is `idleClose` at the last timestamp of the rows. -/
theorem idleFinish_eq_idleClose (rows : List Reading) (lastR : Reading)
    (hlast : rows.getLast? = some lastR) (st : Option ℚ × List IdlePeriod) :
    idleFinish rows st = idleClose lastR.ts st := by
  match st with
  | (none, acc) => simp only [idleFinish, idleClose, hlast]
  | (some s, acc) => simp only [idleFinish, idleClose, hlast]

/-- The loop of `identify_idle_periods`, closed at `lastTs`, recovers the
spec-side maximal-run extraction, for any starting accumulator.  `lastTs`
must be the timestamp of the last row whenever the rows are non-empty. -/
theorem idle_fold_spec (lastTs : ℚ) :
    ∀ (n : ℕ) (rows : List Reading), rows.length ≤ n →
      ∀ acc : List IdlePeriod,
      (∀ r, rows.getLast? = some r → r.ts = lastTs) →
      idleClose lastTs (rows.foldl idleStep (none, acc)) =
        acc ++ (specZeroRuns rows).filterMap (closeRunAt lastTs) := by
  intro n
  induction n with
  | zero =>
    intro rows hn acc _
    have hl : rows = [] := List.length_eq_zero.mp (Nat.le_zero.mp hn)
    subst hl
    simp [idleClose, specZeroRuns, specZeroRunsF]
  | succ n ih =>
    intro rows hn acc hlast
    match rows with
    | [] => simp [idleClose, specZeroRuns, specZeroRunsF]
    | r :: rest =>
      simp only [List.length_cons, Nat.succ_le_succ_iff] at hn
      by_cases hz : r.val = 0
      · rw [List.foldl_cons, idleStep_zero_none acc r hz]
        have hsplit := List.takeWhile_append_dropWhile
          (p := fun x => decide (x.val = 0)) (l := rest)
        have hzs : ∀ z ∈ rest.takeWhile (fun x => decide (x.val = 0)), z.val = 0 := by
          intro z hzin
          have := List.mem_takeWhile_imp hzin
          exact of_decide_eq_true this
        match hdw : rest.dropWhile (fun x => decide (x.val = 0)) with
        | [] =>
          have hrest : rest = rest.takeWhile (fun x => decide (x.val = 0)) := by
            conv_lhs => rw [← hsplit]
            rw [hdw, List.append_nil]
          have hfold : rest.foldl idleStep (some r.ts, acc) = (some r.ts, acc) := by
            conv_lhs => rw [hrest]
            exact foldl_idleStep_zeros _ r.ts acc hzs
          rw [hfold, specZeroRuns_cons_zero r rest hz, hdw]
          simp only [List.filterMap_cons, List.filterMap_nil]
          rw [idleClose, closeRunAt]
          by_cases hc : 5 < lastTs - r.ts
          · rw [if_pos hc]
            simp [hc]
          · rw [if_neg hc]
            simp [hc]
        | nz :: rest' =>
          have hnz : ¬ nz.val = 0 := by
            have := dropWhile_head_not hdw
            intro hc
            rw [hc] at this
            simp at this
          have hfold : rest.foldl idleStep (some r.ts, acc) =
              rest'.foldl idleStep (idleStep (some r.ts, acc) nz) := by
            conv_lhs => rw [← hsplit, hdw]
            rw [List.foldl_append,
              foldl_idleStep_zeros _ r.ts acc hzs, List.foldl_cons]
          have hlt := dropWhile_cons_length hdw
          have hlast' : ∀ x, rest'.getLast? = some x → x.ts = lastTs := by
            intro x hx
            apply hlast
            have hrne : rest' ≠ [] := by
              intro hc
              rw [hc] at hx
              cases hx
            have h1 : (nz :: rest').getLast? = some x := by
              rw [getLast?_cons_ne_nil nz rest' hrne]
              exact hx
            have h2 : rest.getLast? = some x := by
              conv_lhs => rw [← hsplit, hdw]
              rw [List.getLast?_append_of_ne_nil _ (by simp)]
              exact h1
            rw [getLast?_cons_ne_nil r rest (by
              intro hc
              rw [hc] at h2
              cases h2)]
            exact h2
          rw [hfold, idleStep_nonzero_some r.ts acc nz hnz,
            specZeroRuns_cons_zero r rest hz, hdw]
          simp only [List.filterMap_cons]
          rw [closeRunAt]
          by_cases hc : 5 < nz.ts - r.ts
          · rw [if_pos hc]
            simp only [hc, if_true]
            rw [ih rest' (by omega) (acc ++ [mkIdlePeriod r.ts nz.ts]) hlast']
            rw [List.append_assoc]
            rfl
          · rw [if_neg hc]
            simp only [hc, if_false]
            exact ih rest' (by omega) acc hlast'
      · rw [List.foldl_cons, idleStep_nonzero_none acc r hz,
          specZeroRuns_cons_nonzero r rest hz]
        apply ih rest hn acc
        intro x hx
        apply hlast
        have hrne : rest ≠ [] := by
          intro hc
          rw [hc] at hx
          cases hx
        rw [getLast?_cons_ne_nil r rest hrne]
        exact hx

/-- C6: on a chronologically sorted speed series (a fixed point of the
timestamp sort), `identify_idle_periods` returns exactly the maximal
contiguous zero-speed runs whose closed-open duration strictly exceeds 5
minutes, a run still open at the end of the input being closed at the
last timestamp of the series; the empty series yields the empty list. -/
theorem identify_idle_periods_is_maximal_runs (sp : List Reading)
    (hsort : sortByTs sp = sp) :
    identify_idle_periods sp = specIdlePeriods sp := by
  match hsp : sp with
  | [] => rfl
  | r0 :: rest0 =>
    have hne : r0 :: rest0 ≠ [] := by simp
    rw [identify_idle_periods, if_neg hne]
    rw [hsort]
    obtain ⟨lastR, hlastR⟩ :=
      Option.isSome_iff_exists.mp (List.getLast?_isSome.mpr hne)
    rw [idleFinish_eq_idleClose _ lastR hlastR]
    rw [idle_fold_spec lastR.ts (r0 :: rest0).length _ (le_refl _) []
      (by intro x hx; rw [hlastR] at hx; injection hx with h; rw [← h])]
    rw [specIdlePeriods, hlastR]
    rfl

/-- Witness for C5: on fuel/odometer readings at t = 0 and a speed
reading at t = 10, the candidate grid obeys the count bound (the
hypothesis — a non-empty combined timestamp list — holds by
computation). -/
theorem candidate_window_grid_witness :
    allTimestamps [⟨0, 80⟩] [⟨0, 1000⟩] [⟨10, 5⟩] ≠ [] ∧
    (candidateWindows [⟨0, 80⟩] [⟨0, 1000⟩] [⟨10, 5⟩]).length ≤
      ⌈(maxTs [⟨0, 80⟩] [⟨0, 1000⟩] [⟨10, 5⟩] -
          minTs [⟨0, 80⟩] [⟨0, 1000⟩] [⟨10, 5⟩]) / 10⌉₊ :=
  ⟨by decide,
    (candidate_window_grid [⟨0, 80⟩] [⟨0, 1000⟩] [⟨10, 5⟩] (by decide)).1⟩

/-- Witness for C6: a sorted series idling (speed 0) from t = 0 to a
restart at t = 7 — one maximal run, closed at 7, kept since 7 > 5. -/
theorem identify_idle_periods_witness :
    sortByTs [⟨0, 0⟩, ⟨3, 0⟩, ⟨7, 30⟩] = [⟨0, 0⟩, ⟨3, 0⟩, ⟨7, 30⟩] ∧
    identify_idle_periods [⟨0, 0⟩, ⟨3, 0⟩, ⟨7, 30⟩] =
      specIdlePeriods [⟨0, 0⟩, ⟨3, 0⟩, ⟨7, 30⟩] ∧
    identify_idle_periods [⟨0, 0⟩, ⟨3, 0⟩, ⟨7, 30⟩] = [mkIdlePeriod 0 7] := by
  refine ⟨by decide, identify_idle_periods_is_maximal_runs _ (by decide), ?_⟩
  have hcons : ¬ ([⟨0, 0⟩, ⟨3, 0⟩, ⟨7, 30⟩] : List Reading) = [] := by simp
  rw [identify_idle_periods, if_neg hcons]
  norm_num [sortByTs, insertSorted, idleFinish, idleStep, List.foldl, mkIdlePeriod]

end AutoAnalytiX
